import Mathlib

/-!
# Verification of the OSL instance / code-generation core

A shallow embedding, in Lean 4, of the parts of the OpenShadingLanguage
backend covered by `src/liboslexec/llvm_gen.cpp`, `src/liboslexec/instance.cpp`
and `src/liboslexec/dictionary.cpp`, together with proofs relating them to the
natural-language specification.

The embedding models the LLVM IR emitted by the generator routines as a small
expression language (`Expr`): calls to `rop.ll.op_add`, `op_mul`, `op_sub`,
`op_div`, `op_select`, comparisons and loads each construct one node, and every
`llvm_store_value` / `storeLLVMValue` call records the built expression in a
store map keyed by (derivative channel, component), exactly mirroring the
order of operations in the C++ source.  Rational numbers stand in for the
IR's float values (floating-point rounding is outside the scope of the
claims considered here, which are about the symbolic shape of the emitted
arithmetic and exact value propagation).
-/

namespace OSL

/-- Comparison opcodes used by `llvm_gen_minmax` (`rop.ll.op_le` /
`rop.ll.op_gt`). -/
inductive Cmp where
  | le
  | gt
deriving DecidableEq, Repr

/-- Emitted IR values.  `load s d i` is `llvm_load_value(sym s, deriv d, comp i)`;
`safeDiv` is a call to the runtime function `osl_safe_div_fff`; `call` is a
call to any other named runtime function (closure/matrix helpers), whose
numeric behavior is opaque here. -/
inductive Expr where
  | load (sym : Nat) (deriv : Nat) (comp : Nat)
  | const (c : ℚ)
  | add (a b : Expr)
  | sub (a b : Expr)
  | mul (a b : Expr)
  | div (a b : Expr)
  | safeDiv (a b : Expr)
  | select (cmp : Cmp) (x y a b : Expr)
  | call (fn : String)
deriving DecidableEq, Repr

/-- An environment giving the runtime value of each loaded channel:
`env sym deriv comp`. -/
abbrev Env : Type := Nat → Nat → Nat → ℚ

/-- Interpretation of opaque runtime calls. -/
abbrev Extern : Type := String → ℚ

/-- Evaluation of emitted IR under an environment.
`safeDiv` follows its specification (the safe-divide runtime call must not
trap on zero; `osl_safe_div` returns 0 for a zero divisor and the true
quotient otherwise).  Division on `ℚ` also returns 0 at a zero divisor, so
the two differ only in being a raw instruction versus a runtime call. -/
def Expr.eval (env : Env) (ext : Extern) : Expr → ℚ
  | .load s d i => env s d i
  | .const c => c
  | .add a b => a.eval env ext + b.eval env ext
  | .sub a b => a.eval env ext - b.eval env ext
  | .mul a b => a.eval env ext * b.eval env ext
  | .div a b => a.eval env ext / b.eval env ext
  | .safeDiv a b => if b.eval env ext = 0 then 0 else a.eval env ext / b.eval env ext
  | .select c x y a b =>
      match c with
      | .le => if x.eval env ext ≤ y.eval env ext then a.eval env ext else b.eval env ext
      | .gt => if x.eval env ext > y.eval env ext then a.eval env ext else b.eval env ext
  | .call fn => ext fn

/-- The result storage built by a generator: which expression was last stored
to each (derivative channel, component) slot of the Result symbol. -/
abbrev Store : Type := Nat × Nat → Option Expr

/-- The empty store (no slot written yet). -/
def Store.empty : Store := fun _ => none

/-- One `llvm_store_value(e, Result, deriv, comp)`. -/
def Store.set (st : Store) (deriv comp : Nat) (e : Expr) : Store :=
  fun k => if k = (deriv, comp) then some e else st k

/-- What the generators know about a symbol: its identity (for loads), its
`has_derivs()` flag, `is_constant()`, and whether `rop.is_zero(sym)` holds
when it is a constant. -/
structure SymbolGen where
  id : Nat
  has_derivs : Bool
  is_constant : Bool
  const_is_zero : Bool
deriving DecidableEq, Repr

/-- The facts the binary-arithmetic generators extract from
`Result.typespec()`: `simpletype().aggregate`, `is_closure()`, `is_matrix()`,
`is_float_based()`. -/
structure ResultType where
  aggregate : Nat
  is_closure : Bool
  is_matrix : Bool
  is_float_based : Bool
deriving DecidableEq, Repr

/-- Output of an arithmetic generator: the return value of the `LLVMGEN`
routine and the stores it made into the Result symbol. -/
structure GenOut where
  retval : Bool
  store : Store

/-- `rop.llvm_zero_derivs(Result)`: zero-fill both derivative channels of
every component of the result. -/
def llvm_zero_derivs (n : Nat) (st : Store) : Store :=
  fun k => if (k.1 = 1 ∨ k.1 = 2) ∧ k.2 < n then some (.const 0) else st k

/-- Generic fold of a loop body over component indices `0, …, n-1`
(the `for (int i = 0; i < num_components; i++)` loops). -/
def compLoop (n : Nat) (body : Store → Nat → Store) (st : Store) : Store :=
  (List.range n).foldl body st

/-- `llvm_gen_add` from `llvm_gen.cpp`: closure branch calls
`osl_add_closure_closure` and stores the returned pointer; the float/int
branch adds the value channels component-wise, then either adds the
derivative channels (when some operand has them) or zero-fills them. -/
def llvm_gen_add (rty : ResultType) (Result A B : SymbolGen) : GenOut :=
  if rty.is_closure then
    { retval := true
      store := Store.set Store.empty 0 0 (.call "osl_add_closure_closure") }
  else
    let n := rty.aggregate
    let st1 := compLoop n (fun st i =>
      st.set 0 i (.add (.load A.id 0 i) (.load B.id 0 i))) Store.empty
    let st2 :=
      if Result.has_derivs then
        if A.has_derivs || B.has_derivs then
          ([1, 2] : List Nat).foldl (fun st d =>
            compLoop n (fun st i =>
              st.set d i (.add (.load A.id d i) (.load B.id d i))) st) st1
        else
          llvm_zero_derivs n st1
      else st1
    { retval := true, store := st2 }

/-- `llvm_gen_sub` from `llvm_gen.cpp` (closure subtraction is not
supported, so only the arithmetic branch exists). -/
def llvm_gen_sub (rty : ResultType) (Result A B : SymbolGen) : GenOut :=
  let n := rty.aggregate
  let st1 := compLoop n (fun st i =>
    st.set 0 i (.sub (.load A.id 0 i) (.load B.id 0 i))) Store.empty
  let st2 :=
    if Result.has_derivs then
      if A.has_derivs || B.has_derivs then
        ([1, 2] : List Nat).foldl (fun st d =>
          compLoop n (fun st i =>
            st.set d i (.sub (.load A.id d i) (.load B.id d i))) st) st1
      else
        llvm_zero_derivs n st1
    else st1
  { retval := true, store := st2 }

/-- The loop body of `llvm_gen_mul`'s component loop: store the product of
the value channels, and, when the result and some operand carry derivatives,
store the product rule `(a*b, a*bx + ax*b, a*by + ay*b)`. -/
def mulCompBody (Result A B : SymbolGen) (st : Store) (i : Nat) : Store :=
  let a := Expr.load A.id 0 i
  let b := Expr.load B.id 0 i
  let st := st.set 0 i (.mul a b)
  if Result.has_derivs && (A.has_derivs || B.has_derivs) then
    let ax := Expr.load A.id 1 i
    let bx := Expr.load B.id 1 i
    let rx := Expr.add (.mul a bx) (.mul ax b)
    let ay := Expr.load A.id 2 i
    let by' := Expr.load B.id 2 i
    let ry := Expr.add (.mul a by') (.mul ay b)
    (st.set 1 i rx).set 2 i ry
  else st

/-- `llvm_gen_mul` from `llvm_gen.cpp`: closure branch calls the closure
multiply helpers; matrix branch calls `osl_mul_mm*` and zero-fills the
derivatives; otherwise the component loop applies the product rule, and a
result with derivatives whose operands have none gets zero-filled
derivatives. -/
def llvm_gen_mul (rty : ResultType) (Result A B : SymbolGen) : GenOut :=
  if rty.is_closure then
    { retval := true
      store := Store.set Store.empty 0 0 (.call "osl_mul_closure") }
  else if rty.is_matrix then
    let st := Store.set Store.empty 0 0 (.call "osl_mul_matrix")
    { retval := true
      store := if Result.has_derivs then llvm_zero_derivs rty.aggregate st else st }
  else
    let n := rty.aggregate
    let st1 := compLoop n (mulCompBody Result A B) Store.empty
    let st2 :=
      if Result.has_derivs && !(A.has_derivs || B.has_derivs) then
        llvm_zero_derivs n st1
      else st1
    { retval := true, store := st2 }

/-- The quotient `a/b` as `llvm_gen_div` emits it: a raw `op_div` when the
divisor is a compile-time constant that is not provably zero, else a call to
the safe-divide runtime function. -/
def divExpr (B : SymbolGen) (a b : Expr) : Expr :=
  if B.is_constant ∧ ¬B.const_is_zero then .div a b else .safeDiv a b

/-- The loop body of `llvm_gen_div`'s component loop, with `deriv` the
precomputed flag `Result.has_derivs() && (A.has_derivs() || B.has_derivs())`:
store `a/b`, and under `deriv` the quotient rule
`(a/b, 1/b*(ax - a/b*bx), 1/b*(ay - a/b*by))`. -/
def divCompBody (A B : SymbolGen) (deriv : Bool) (st : Store) (i : Nat) : Store :=
  let a := Expr.load A.id 0 i
  let b := Expr.load B.id 0 i
  let a_div_b := divExpr B a b
  let st := st.set 0 i a_div_b
  if deriv then
    let binv := divExpr B (.const 1) b
    let ax := Expr.load A.id 1 i
    let bx := Expr.load B.id 1 i
    let rx := Expr.mul binv (.sub ax (.mul a_div_b bx))
    let ay := Expr.load A.id 2 i
    let by' := Expr.load B.id 2 i
    let ry := Expr.mul binv (.sub ay (.mul a_div_b by'))
    (st.set 1 i rx).set 2 i ry
  else st

/-- `llvm_gen_div` from `llvm_gen.cpp`: matrix branch calls `osl_div_m*` and
zero-fills derivatives; otherwise the component loop divides (raw or safe),
optionally applying the quotient rule, and a result with derivatives whose
operands have none gets zero-filled derivatives. -/
def llvm_gen_div (rty : ResultType) (Result A B : SymbolGen) : GenOut :=
  if rty.is_matrix then
    let st := Store.set Store.empty 0 0 (.call "osl_div_matrix")
    { retval := true
      store := if Result.has_derivs then llvm_zero_derivs rty.aggregate st else st }
  else
    let n := rty.aggregate
    let deriv := Result.has_derivs && (A.has_derivs || B.has_derivs)
    let st1 := compLoop n (divCompBody A B deriv) Store.empty
    let st2 :=
      if Result.has_derivs && !(A.has_derivs || B.has_derivs) then
        llvm_zero_derivs n st1
      else st1
    { retval := true, store := st2 }

/-- The min/max opcodes dispatched to `llvm_gen_minmax`. -/
inductive MinMaxOp where
  | opmin
  | opmax
deriving DecidableEq, Repr

/-- The loop body of `llvm_gen_minmax`: the condition is `x <= y` for `min`
(ties toward the first operand) and `x > y` for `max`; value and, when the
result has derivatives, both derivative channels are selected by the same
condition. -/
def minmaxCompBody (op : MinMaxOp) (Result x y : SymbolGen) (st : Store) (i : Nat) : Store :=
  let xv := Expr.load x.id 0 i
  let yv := Expr.load y.id 0 i
  let cond : Cmp := match op with
    | .opmin => .le
    | .opmax => .gt
  let st := st.set 0 i (.select cond xv yv xv yv)
  if Result.has_derivs then
    let xdx := Expr.load x.id 1 i
    let xdy := Expr.load x.id 2 i
    let ydx := Expr.load y.id 1 i
    let ydy := Expr.load y.id 2 i
    (st.set 1 i (.select cond xv yv xdx ydx)).set 2 i (.select cond xv yv xdy ydy)
  else st

/-- `llvm_gen_minmax` from `llvm_gen.cpp`. -/
def llvm_gen_minmax (op : MinMaxOp) (rty : ResultType) (Result x y : SymbolGen) : GenOut :=
  { retval := true
    store := compLoop rty.aggregate (minmaxCompBody op Result x y) Store.empty }


/-! ## Instance model (`instance.cpp`)

Data model for `ShaderInstance`, its override records, and the master
program, restricted to the fields the provided sources consult.  Parameter
pools hold typed base values (`Int` / `ℚ` / `String`) instead of raw bytes;
`memcmp` over same-typed storage corresponds to list equality of the value
slices. -/

inductive BaseType where
  | INT
  | FLOAT
  | STRING
deriving DecidableEq, Repr

/-- OIIO `TypeDesc`, reduced to the fields this code consults: base type,
aggregate arity, and array length (0 = not an array, positive = sized array,
negative = indefinite-length array). -/
structure TypeDesc where
  basetype : BaseType
  aggregate : Nat
  arraylen : Int
deriving DecidableEq, Repr

/-- OIIO `TypeDesc::numelements` (array length, or 1 for non-arrays and
indefinite arrays). -/
def TypeDesc.numelements (t : TypeDesc) : Nat :=
  if 1 ≤ t.arraylen then t.arraylen.toNat else 1

/-- OIIO `TypeDesc::basevalues`: `numelements * aggregate`.  `memcmp` sizes
(`size()`) are modelled as base-value counts, since the pools hold typed
values rather than bytes. -/
def TypeDesc.basevalues (t : TypeDesc) : Nat := t.numelements * t.aggregate

def TypeDesc.is_vec3 (t : TypeDesc) : Bool :=
  t.aggregate = 3 && t.arraylen = 0 && t.basetype = BaseType.FLOAT

def TypeDesc.is_unsized_array (t : TypeDesc) : Bool := t.arraylen < 0

/-- `TypeDesc::FLOAT` as a full type descriptor. -/
def FLOATdesc : TypeDesc := ⟨.FLOAT, 1, 0⟩

/-- OIIO `TypeDesc::equivalent`, as documented by the comment above
`compatible_param` in `instance.cpp`: matching types, and if arrays,
matching lengths or an undetermined length on the parameter side. -/
def tydesc_equivalent (a b : TypeDesc) : Bool :=
  a.basetype = b.basetype && a.aggregate = b.aggregate &&
    (a.arraylen = b.arraylen || (a.arraylen < 0 && 0 < b.arraylen))

/-- `compatible_param` from `instance.cpp`: equivalent types, or a single
float bound to a non-array triple. -/
def compatible_param (a b : TypeDesc) : Bool :=
  tydesc_equivalent a b || (a.is_vec3 && b = FLOATdesc)

inductive ValueSource where
  | DefaultVal
  | InstanceVal
  | GeomVal
  | ConnectedVal
deriving DecidableEq, Repr

inductive SymType where
  | SymTypeParam
  | SymTypeOutputParam
  | SymTypeLocal
  | SymTypeTemp
  | SymTypeGlobal
  | SymTypeConst
deriving DecidableEq, Repr

/-- One typed base value held in a parameter pool. -/
inductive PoolVal where
  | pi (v : Int)
  | pf (v : ℚ)
  | ps (v : String)
deriving DecidableEq, Repr

instance : Inhabited PoolVal := ⟨.pf 0⟩

def PoolVal.hasBase (bt : BaseType) : PoolVal → Bool
  | .pi _ => bt = .INT
  | .pf _ => bt = .FLOAT
  | .ps _ => bt = .STRING

def toIntVal : PoolVal → Int
  | .pi v => v
  | _ => 0

def toFloatVal : PoolVal → ℚ
  | .pf v => v
  | _ => 0

def toStrVal : PoolVal → String
  | .ps v => v
  | _ => ""

/-- `TypeSpec`: a simple type plus closure-ness and structure-ness (struct
parameters are placeholders skipped before any logic modelled here). -/
structure TypeSpec where
  simple : TypeDesc
  closure : Bool
  is_structure : Bool
deriving DecidableEq, Repr

/-- The `Symbol` fields consulted by `instance.cpp`.  `data` is the constant
payload behind the symbol's data pointer (used only for constants by
`equivalent`). -/
structure Symbol where
  name : String
  symtype : SymType
  typespec : TypeSpec
  valuesource : ValueSource
  everused : Bool
  everused_in_group : Bool
  interpolated : Bool
  interactive : Bool
  has_derivs : Bool
  fieldid : Int
  initbegin : Nat
  initend : Nat
  dataoffset : Nat
  data : List PoolVal
deriving DecidableEq, Repr

instance : Inhabited Symbol :=
  ⟨⟨"", .SymTypeLocal, ⟨FLOATdesc, false, false⟩, .DefaultVal,
    false, false, false, false, false, 0, 0, 0, 0, []⟩⟩

/-- `Symbol::lockgeom()`: a parameter is locked unless interpolated or
interactive. -/
def Symbol.lockgeom (s : Symbol) : Bool := !s.interpolated && !s.interactive

/-- `Symbol::has_init_ops()`: a nonempty init-ops range. -/
def Symbol.has_init_ops (s : Symbol) : Bool := s.initbegin ≠ s.initend

/-- `equivalent(Symbol&, Symbol&)` from `instance.cpp`: symbol equivalence
from the point of view of merging (unused symbols vacuously equivalent;
constants must match their stored values; names ignored for temps and
constants). -/
def symEquivalent (a b : Symbol) : Bool :=
  if ¬a.everused ∧ ¬b.everused then true
  else if a.symtype ≠ b.symtype ∨ a.typespec ≠ b.typespec then false
  else if a.symtype ≠ .SymTypeTemp ∧ a.symtype ≠ .SymTypeConst ∧ a.name ≠ b.name then false
  else if a.symtype = .SymTypeConst ∧
      a.data.take a.typespec.simple.basevalues ≠
        b.data.take a.typespec.simple.basevalues then false
  else decide (a.has_derivs = b.has_derivs ∧ a.lockgeom = b.lockgeom
       ∧ a.valuesource = b.valuesource ∧ a.fieldid = b.fieldid
       ∧ a.initbegin = b.initbegin ∧ a.initend = b.initend)

/-- `SymOverrideInfo`: the per-parameter override record kept before
specialization.  The struct is declared in `oslexec_pvt.h` (not among the
provided sources); its fields are those read and written by `instance.cpp`. -/
structure SymOverrideInfo where
  valuesource : ValueSource
  arraylen : Nat
  interpolated : Bool
  interactive : Bool
  connected_down : Bool
  dataoffset : Nat
deriving DecidableEq, Repr

instance : Inhabited SymOverrideInfo := ⟨⟨.DefaultVal, 0, false, false, false, 0⟩⟩

/-- Modelled from the spec: `equivalent(SymOverrideInfo&, SymOverrideInfo&)`
is declared in `oslexec_pvt.h`, which is not among the provided sources.
Per the spec (§4.3 step 3), two overrides are equivalent if their value
source, array length and, for connected/instance values, their underlying
stored bytes match (the byte slices are supplied by the caller). -/
def overrideEquivalent (a b : SymOverrideInfo)
    (abytes bbytes : List PoolVal) : Bool :=
  decide (a.valuesource = b.valuesource ∧ a.arraylen = b.arraylen ∧
    ((a.valuesource = .ConnectedVal ∨ a.valuesource = .InstanceVal) →
      abytes = bbytes))

structure ConnectedParam where
  param : Int
  arrayindex : Int
  channel : Int
  type : TypeSpec
deriving DecidableEq, Repr

structure Connection where
  srclayer : Int
  src : ConnectedParam
  dst : ConnectedParam
deriving DecidableEq, Repr

/-- The `Opcode` fields consulted by the modelled code paths. -/
structure Opcode where
  opname : String
  sourcefile : String
  sourceline : Nat
  firstarg : Nat
  nargs : Nat
deriving DecidableEq, Repr

/-- Modelled from the spec: `equivalent(Opcode&, Opcode&)` is declared
outside the provided sources; §4.3 step 8 requires opcode streams
"equivalent under the same rule", modelled conservatively as structural
equality of the opcode records. -/
def opEquivalent (a b : Opcode) : Bool := a = b

/-- The immutable shared master program: symbol table, parameter range and
default-value pools. -/
structure ShaderMaster where
  id : Nat
  symbols : List Symbol
  firstparam : Nat
  lastparam : Nat
  idefaults : List Int
  fdefaults : List ℚ
  sdefaults : List String
deriving DecidableEq, Repr

def ShaderMaster.symbol (m : ShaderMaster) (i : Nat) : Symbol :=
  m.symbols.getD i default

/-- `ShaderMaster::param_default_storage`: the first `n` default base values
of parameter `i`, from the typed default pool at the symbol's offset. -/
def ShaderMaster.param_default_storage (m : ShaderMaster) (i n : Nat) : List PoolVal :=
  let sym := m.symbol i
  match sym.typespec.simple.basetype with
  | .INT => ((m.idefaults.drop sym.dataoffset).take n).map PoolVal.pi
  | .FLOAT => ((m.fdefaults.drop sym.dataoffset).take n).map PoolVal.pf
  | .STRING => ((m.sdefaults.drop sym.dataoffset).take n).map PoolVal.ps

/-- `ShaderInstance`, with the fields `mergeable` consults.  `master.id`
stands for the master pointer (`master() != b.master()` compares
identities). -/
structure ShaderInstance where
  master : ShaderMaster
  renderer_outputs : Bool
  instoverrides : List SymOverrideInfo
  instsymbols : List Symbol
  instops : List Opcode
  instargs : List Int
  iparams : List Int
  fparams : List ℚ
  sparams : List String
  connections : List Connection
  run_lazily : Bool
  userdata_params : Bool
  firstparam : Nat
  lastparam : Nat
  maincodebegin : Nat
  maincodeend : Nat
  Psym : Int
  Nsym : Int
deriving DecidableEq, Repr

def ShaderInstance.symbol (inst : ShaderInstance) (i : Nat) : Symbol :=
  inst.instsymbols.getD i default

def ShaderInstance.mastersymbol (inst : ShaderInstance) (i : Nat) : Symbol :=
  inst.master.symbols.getD i default

/-- `ShaderInstance::param_storage`: the `n` base values readable for
parameter `index`.  When an array-length override is in effect the data
offset comes from the override record (the storage was re-allocated at the
end of the pool); otherwise from the symbol, which lives in the instance
symbol table if that has been copied, else in the master. -/
def ShaderInstance.param_storage (inst : ShaderInstance) (index n : Nat) : List PoolVal :=
  let sym := if inst.instsymbols.length ≠ 0 then inst.symbol index
             else inst.mastersymbol index
  let so := inst.instoverrides.getD index default
  let offset := if inst.instoverrides.length ≠ 0 ∧ so.arraylen ≠ 0 then so.dataoffset
                else sym.dataoffset
  match sym.typespec.simple.basetype with
  | .INT => ((inst.iparams.drop offset).take n).map PoolVal.pi
  | .FLOAT => ((inst.fparams.drop offset).take n).map PoolVal.pf
  | .STRING => ((inst.sparams.drop offset).take n).map PoolVal.ps

/-- One iteration of `mergeable`'s pre-specialization override loop
(`instance.cpp` lines 624-653): both-Default/Instance pairs are deferred to
the later per-parameter value check; inequivalent records disqualify unless
neither symbol is used in the group; otherwise an interpolated or
interactive mismatch disqualifies. -/
def slotCheck (a b : SymOverrideInfo) (abytes bbytes : List PoolVal)
    (aUsed bUsed : Bool) : Bool :=
  if (a.valuesource = .DefaultVal ∨ a.valuesource = .InstanceVal) ∧
     (b.valuesource = .DefaultVal ∨ b.valuesource = .InstanceVal) then true
  else if ¬ overrideEquivalent a b abytes bbytes then
    (if ¬aUsed ∧ ¬bUsed then true else false)
  else if a.interpolated ≠ b.interpolated ∨ a.interactive ≠ b.interactive then false
  else true

/-- `mergeable`'s override loop over all override records. -/
def overridesOK (A B : ShaderInstance) : Bool :=
  (List.range A.instoverrides.length).all (fun i =>
    slotCheck (A.instoverrides.getD i default) (B.instoverrides.getD i default)
      (A.param_storage i (A.mastersymbol i).typespec.simple.basevalues)
      (B.param_storage i (B.mastersymbol i).typespec.simple.basevalues)
      (A.mastersymbol i).everused_in_group (B.mastersymbol i).everused_in_group)

/-- One iteration of `mergeable`'s per-parameter value loop (`instance.cpp`
lines 660-676): parameters used in the group with instance or default
values must hold byte-identical storage and must not be interactive. -/
def paramValCheck (A B : ShaderInstance) (optimized : Bool) (i : Nat) : Bool :=
  let sym := if optimized then A.symbol i else A.mastersymbol i
  if ¬sym.everused_in_group then true
  else if sym.typespec.closure then true
  else
    let bsym := if optimized then B.symbol i else B.mastersymbol i
    let n := sym.typespec.simple.basevalues
    if (sym.valuesource = .InstanceVal ∨ sym.valuesource = .DefaultVal) ∧
       (A.param_storage i n ≠ B.param_storage i n ∨ bsym.interactive) then false
    else true

/-- The `equivalent(vector, vector)` template from `instance.cpp`: equal
sizes and pairwise equivalence. -/
def listEquivalent {α : Type} (eqv : α → α → Bool) (a b : List α) : Bool :=
  a.length = b.length && (List.zip a b).all (fun p => eqv p.1 p.2)

/-- `ShaderInstance::mergeable` from `instance.cpp`, with the shading
system's `m_opt_merge_instances_with_userdata` option passed explicitly. -/
def mergeable (optMergeUserdata : Bool) (A B : ShaderInstance) : Bool :=
  if A.master.id ≠ B.master.id then false
  else if A.renderer_outputs ∨ B.renderer_outputs then false
  else
    let optimized : Bool := A.instsymbols.length != 0 || A.instops.length != 0
    if ¬ overridesOK A B then false
    else if ¬ (List.range' A.firstparam (A.lastparam - A.firstparam)).all
                (paramValCheck A B optimized) then false
    else if A.run_lazily ≠ B.run_lazily then false
    else if A.connections.length ≠ B.connections.length then false
    else if A.connections ≠ B.connections then false
    else if ¬optMergeUserdata ∧ (A.userdata_params ∨ B.userdata_params) then false
    else if ¬optimized then true
    else if ¬ listEquivalent symEquivalent A.instsymbols B.instsymbols then false
    else if ¬ listEquivalent opEquivalent A.instops B.instops then false
    else if A.instargs ≠ B.instargs then false
    else if A.firstparam ≠ B.firstparam ∨ A.lastparam ≠ B.lastparam ∨
            A.maincodebegin ≠ B.maincodebegin ∨ A.maincodeend ≠ B.maincodeend ∨
            A.Psym ≠ B.Psym ∨ A.Nsym ≠ B.Nsym then false
    else true


/-- A supplied parameter value (`OIIO::ParamValue`): name, type of the
provided data, and the data itself as typed base values. -/
structure ParamValue where
  name : String
  type : TypeDesc
  data : List PoolVal
deriving DecidableEq, Repr

/-- `ParamHints` for one supplied value. -/
structure ParamHints where
  interpolated : Bool
  interactive : Bool
deriving DecidableEq, Repr

/-! ## Parameter binding (`ShaderInstance::parameters`) -/

/-- State mutated by `parameters`: the three typed value pools and the
override records (pre-specialization; the symbol table still lives in the
master). -/
structure BindState where
  iparams : List Int
  fparams : List ℚ
  sparams : List String
  overrides : List SymOverrideInfo
deriving DecidableEq, Repr

/-- `expand(vec, n)`: grow a pool by `n` default-initialized entries. -/
def expand {α : Type} [Inhabited α] (pool : List α) (n : Nat) : List α :=
  pool ++ List.replicate n default

/-- `memcpy` into a pool: overwrite `vals.length` entries starting at
`offset`. -/
def listOverwrite {α : Type} (pool : List α) (offset : Nat) (vals : List α) : List α :=
  pool.take offset ++ vals ++ pool.drop (offset + vals.length)

/-- `ShaderInstance::findparam` before specialization: the instance symbol
table is empty, so the master's parameter range is searched. -/
def findparamMaster (m : ShaderMaster) (name : String) : Option Nat :=
  (List.range' m.firstparam (m.lastparam - m.firstparam)).find?
    (fun i => (m.symbol i).name = name)

/-- `param_storage` over the in-progress binding state (the instance symbol
table is empty during `parameters`, so symbols come from the master). -/
def BindState.param_storage (m : ShaderMaster) (st : BindState) (index n : Nat) :
    List PoolVal :=
  let sym := m.symbol index
  let so := st.overrides.getD index default
  let offset := if st.overrides.length ≠ 0 ∧ so.arraylen ≠ 0 then so.dataoffset
                else sym.dataoffset
  match sym.typespec.simple.basetype with
  | .INT => ((st.iparams.drop offset).take n).map PoolVal.pi
  | .FLOAT => ((st.fparams.drop offset).take n).map PoolVal.pf
  | .STRING => ((st.sparams.drop offset).take n).map PoolVal.ps

/-- The final `memcpy(param_storage(i), data, valuetype.size())` of the
binding loop: write the supplied base values into the typed pool selected by
the parameter's base type, at the offset `param_storage` computes. -/
def copyParamData (m : ShaderMaster) (st : BindState) (i : Nat)
    (data : List PoolVal) : BindState :=
  let sym := m.symbol i
  let so := st.overrides.getD i default
  let offset := if st.overrides.length ≠ 0 ∧ so.arraylen ≠ 0 then so.dataoffset
                else sym.dataoffset
  match sym.typespec.simple.basetype with
  | .INT => { st with iparams := listOverwrite st.iparams offset (data.map toIntVal) }
  | .FLOAT => { st with fparams := listOverwrite st.fparams offset (data.map toFloatVal) }
  | .STRING => { st with sparams := listOverwrite st.sparams offset (data.map toStrVal) }

/-- Modelled from the spec: `relaxed_equivalent` lives in the shading-system
sources outside the provided files.  Per the spec (§4.1), relaxed-typecheck
mode accepts "any numerically-convertible pairing": equal base types (or an
int supplied where a float is wanted) with an equal total base-value count,
or an indefinite-length parameter array. -/
def relaxed_equivalent (a : TypeSpec) (b : TypeDesc) : Bool :=
  decide ((a.simple.basetype = b.basetype ∨
      (a.simple.basetype = .FLOAT ∧ b.basetype = .INT)) ∧
    (a.simple.basevalues = b.basevalues ∨ a.simple.arraylen < 0))

def headInt : List PoolVal → Int
  | (PoolVal.pi v) :: _ => v
  | _ => 0

/-- The body of `ShaderInstance::parameters`' per-parameter loop
(`instance.cpp` lines 207-351) for one supplied value.  Closure- and
struct-typed parameters and incompatible value types are skipped (with a
diagnostic); otherwise the override becomes an instance value, hints are
applied, a lone float is broadcast into a triple, indefinite-length arrays
get fresh storage at the end of their typed pool, a definite-size value that
is byte-identical to the master default (for a lockgeom parameter with no
init ops) reverts to a default value source, and finally the data is copied
into place.  (In the relaxed branch the int-to-float conversion is exact on
`ℚ`, so the lost-precision diagnostic of the original cannot fire.) -/
def bindOneParam (m : ShaderMaster) (relaxed : Bool) (st : BindState)
    (p : ParamValue) (hint : ParamHints) : BindState :=
  if p.name.length = 0 then st
  else
    match findparamMaster m p.name with
    | none => st
    | some i =>
      let sm := m.symbol i
      if sm.typespec.closure then st
      else if sm.typespec.is_structure then st
      else
        let paramtype := sm.typespec.simple
        let dv1 : TypeDesc × List PoolVal :=
          if relaxed ∧ (paramtype = FLOATdesc ∨ paramtype.is_vec3 = true) ∧
              p.type.basetype = .INT ∧ p.type.basevalues = 1 then
            (FLOATdesc, [PoolVal.pf ((headInt p.data : Int) : ℚ)])
          else (p.type, p.data)
        if relaxed ∧ ¬ relaxed_equivalent sm.typespec dv1.1 then st
        else if ¬relaxed ∧ ¬ compatible_param paramtype dv1.1 then st
        else
          let so0 := st.overrides.getD i default
          let so1 : SymOverrideInfo :=
            { so0 with
              valuesource := .InstanceVal
              interpolated := sm.interpolated || hint.interpolated
              interactive := hint.interactive
              dataoffset := sm.dataoffset }
          let lockgeom : Bool := !so1.interpolated && !so1.interactive
          let dv2 : TypeDesc × List PoolVal :=
            if paramtype.is_vec3 = true ∧ dv1.1 = FLOATdesc then
              (paramtype, [dv1.2.getD 0 default, dv1.2.getD 0 default,
                           dv1.2.getD 0 default])
            else dv1
          let valuetype := dv2.1
          let data := dv2.2
          if paramtype.arraylen < 0 then
            let nelements := valuetype.basevalues
            let so2 := { so1 with arraylen := nelements / paramtype.aggregate }
            let stso : BindState × SymOverrideInfo :=
              match paramtype.basetype with
              | .FLOAT => ({ st with fparams := expand st.fparams nelements },
                           { so2 with dataoffset := st.fparams.length })
              | .INT => ({ st with iparams := expand st.iparams nelements },
                         { so2 with dataoffset := st.iparams.length })
              | .STRING => ({ st with sparams := expand st.sparams nelements },
                            { so2 with dataoffset := st.sparams.length })
            let st1 := { stso.1 with overrides := stso.1.overrides.set i stso.2 }
            copyParamData m st1 i data
          else
            let defaultdata := m.param_default_storage i valuetype.basevalues
            let so2 :=
              if lockgeom ∧ ¬sm.has_init_ops ∧
                  defaultdata = data.take valuetype.basevalues then
                { so1 with valuesource := .DefaultVal }
              else so1
            let st1 := { st with overrides := st.overrides.set i so2 }
            copyParamData m st1 i data

/-- `ShaderInstance::parameters`: seed the pools from the master's defaults,
initialize an override record per parameter slot from the master's symbols,
then bind each supplied value in order. -/
def parameters (m : ShaderMaster) (relaxed : Bool)
    (ps : List (ParamValue × ParamHints)) : BindState :=
  let st0 : BindState :=
    { iparams := m.idefaults
      fparams := m.fdefaults
      sparams := m.sdefaults
      overrides := (List.range m.lastparam).map (fun i =>
        let sym := m.symbol i
        { valuesource := .DefaultVal
          arraylen := 0
          interpolated := sym.interpolated
          interactive := sym.interactive
          connected_down := false
          dataoffset := sym.dataoffset }) }
  ps.foldl (fun st pv => bindOneParam m relaxed st pv.1 pv.2) st0


/-! ## Concrete instances for the merge examples -/

/-- A minimal master used by the concrete merge examples. -/
def masterM0 : ShaderMaster := ⟨7, [], 0, 0, [], [], []⟩

/-- An instance of `masterM0` directly bound to a renderer output. -/
def instRendererOut : ShaderInstance :=
  { master := masterM0, renderer_outputs := true, instoverrides := [],
    instsymbols := [], instops := [], instargs := [], iparams := [],
    fparams := [], sparams := [], connections := [], run_lazily := false,
    userdata_params := false, firstparam := 0, lastparam := 0,
    maincodebegin := 0, maincodeend := 0, Psym := -1, Nsym := -1 }

/-- A float parameter symbol that is used within its group. -/
def symKd : Symbol :=
  { name := "Kd", symtype := .SymTypeParam,
    typespec := ⟨FLOATdesc, false, false⟩, valuesource := .DefaultVal,
    everused := true, everused_in_group := true, interpolated := false,
    interactive := false, has_derivs := false, fieldid := -1,
    initbegin := 0, initend := 0, dataoffset := 0, data := [] }

/-- The rational 0.8 (= 4/5) in normalized form, so that concrete examples
reduce under `decide` (`Rat` division does not kernel-reduce). -/
def q08 : ℚ := ⟨4, 5, by decide, by decide⟩

/-- A master with the single used parameter `Kd` (float, default 0.8). -/
def masterM1 : ShaderMaster := ⟨9, [symKd], 0, 1, [], [q08], []⟩

/-- Instance-value override of `Kd`, flagged interpolated. -/
def ovrKdInterp : SymOverrideInfo := ⟨.InstanceVal, 0, true, false, false, 0⟩

/-- Instance-value override of `Kd` without hints. -/
def ovrKdPlain : SymOverrideInfo := ⟨.InstanceVal, 0, false, false, false, 0⟩

/-- Pre-specialization instance of `masterM1` whose `Kd` override is
interpolated. -/
def instKdInterp : ShaderInstance :=
  { master := masterM1, renderer_outputs := false,
    instoverrides := [ovrKdInterp], instsymbols := [], instops := [],
    instargs := [], iparams := [], fparams := [q08], sparams := [],
    connections := [], run_lazily := false, userdata_params := true,
    firstparam := 0, lastparam := 1, maincodebegin := 0, maincodeend := 0,
    Psym := -1, Nsym := -1 }

/-- The same instance except that its `Kd` override is not interpolated. -/
def instKdPlain : ShaderInstance :=
  { instKdInterp with instoverrides := [ovrKdPlain], userdata_params := false }

/-- Connected override carrying the interpolated hint. -/
def ovrConnInterp : SymOverrideInfo := ⟨.ConnectedVal, 0, true, false, false, 0⟩

/-- Connected override without hints. -/
def ovrConnPlain : SymOverrideInfo := ⟨.ConnectedVal, 0, false, false, false, 0⟩

/-- The `Kd` value supplied explicitly, equal to its master default. -/
def pvKd : ParamValue := ⟨"Kd", FLOATdesc, [PoolVal.pf q08]⟩

/-- An indefinite-length float-array parameter symbol. -/
def symFArr : Symbol :=
  { name := "vals", symtype := .SymTypeParam,
    typespec := ⟨⟨.FLOAT, 1, -1⟩, false, false⟩, valuesource := .DefaultVal,
    everused := true, everused_in_group := true, interpolated := false,
    interactive := false, has_derivs := false, fieldid := -1,
    initbegin := 0, initend := 0, dataoffset := 0, data := [] }

/-- A master with a single indefinite-length float-array parameter. -/
def masterM2 : ShaderMaster := ⟨11, [symFArr], 0, 1, [], [], []⟩

/-- A two-element float array supplied for `vals`. -/
def pvFArr : ParamValue := ⟨"vals", ⟨.FLOAT, 1, 2⟩, [PoolVal.pf 3, PoolVal.pf 7]⟩

/-! ## Closure construction (`llvm_gen_closure`) -/

def TypeSpec.is_string (t : TypeSpec) : Bool :=
  !t.closure && t.simple.basetype = BaseType.STRING &&
    t.simple.aggregate = 1 && t.simple.arraylen = 0

def TypeSpec.is_closure_array (t : TypeSpec) : Bool :=
  t.closure && t.simple.arraylen ≠ 0

/-- `Symbol::get_string()` for a constant string symbol. -/
def Symbol.string_value (s : Symbol) : String := toStrVal (s.data.getD 0 default)

/-- A registered closure parameter (`ClosureParam`): keyword (none for a
formal positional slot), type, byte offset and field size. -/
structure ClosureParam where
  key : Option String
  type : TypeDesc
  offset : Nat
  field_size : Nat
deriving DecidableEq, Repr

instance : Inhabited ClosureParam := ⟨⟨none, FLOATdesc, 0, 0⟩⟩

/-- A registry entry (`ClosureRegistry::ClosureEntry`). -/
structure ClosureEntry where
  id : Int
  nformal : Nat
  nkeyword : Nat
  params : List ClosureParam
  struct_size : Nat
  has_prepare : Bool
  has_setup : Bool
deriving DecidableEq, Repr

/-- A diagnostic emitted during closure construction, recorded as its format
arguments: what went wrong, the closure's name, and the call site. -/
structure ClosureError where
  kind : String
  closure_name : String
  sourcefile : String
  sourceline : Nat
deriving DecidableEq, Repr

/-- What `llvm_gen_closure` emitted: return value, errors, warnings, the
runtime allocation calls, the (offset, size) copies into closure memory, and
whether prepare / zero-fill / setup ran. -/
structure ClosureGenOut where
  retval : Bool
  errors : List ClosureError
  warnings : List ClosureError
  alloc_calls : List String
  copies : List (Nat × Nat)
  prepare_called : Bool
  memset_zero : Bool
  setup_called : Bool
deriving DecidableEq, Repr

/-- The formal-argument copy loop of `llvm_gen_closure` (stopping at the
first keyword slot, mirroring the `break`): type-checked copies, with a
descriptive error for mismatches that does not abort construction. -/
def closureFormalCopies (clentry : ClosureEntry) (op : Opcode)
    (closure_name : String) (weighted : Nat) (args : List Symbol) :
    List (Nat × Nat) × List ClosureError :=
  ((clentry.params.take clentry.nformal).takeWhile
      (fun p => p.key = none)).enum.foldl
    (fun acc pc =>
      let carg := pc.1
      let p := pc.2
      let sym := args.getD (carg + 2 + weighted) default
      let t := sym.typespec.simple
      if ¬sym.typespec.is_closure_array ∧ ¬sym.typespec.is_structure ∧
          tydesc_equivalent t p.type then
        (acc.1 ++ [(p.offset, p.type.basevalues)], acc.2)
      else
        (acc.1, acc.2 ++ [⟨"incompatible formal argument", closure_name,
                           op.sourcefile, op.sourceline⟩]))
    ([], [])

/-- `llvm_gen_keyword_fill`: each trailing (key, value) pair is matched
against the registry's keyword parameters by name and type; a match emits
one copy, a non-match a non-fatal warning. -/
def keywordFill (clentry : ClosureEntry) (op : Opcode) (closure_name : String)
    (argsoffset : Nat) (args : List Symbol) :
    List (Nat × Nat) × List ClosureError :=
  let nattrs := (args.length - argsoffset) / 2
  (List.range nattrs).foldl
    (fun acc attri =>
      let argno := attri * 2 + argsoffset
      let key := (args.getD argno default).string_value
      let vty := (args.getD (argno + 1) default).typespec.simple
      match ((clentry.params.drop clentry.nformal).take clentry.nkeyword).find?
          (fun p => tydesc_equivalent p.type vty && p.key = some key) with
      | some p => (acc.1 ++ [(p.offset, p.type.basevalues)], acc.2)
      | none => (acc.1, acc.2 ++ [⟨"unsupported closure keyword", closure_name,
                                   op.sourcefile, op.sourceline⟩]))
    ([], [])

/-- `llvm_gen_closure` from `llvm_gen.cpp`: resolve the closure name against
the external registry; an unknown name reports an error naming the closure,
the source file and the source line and returns false before any allocation;
otherwise allocate (weight-qualified or plain), run prepare or zero-fill the
memory, copy the type-checked formal arguments, run setup, and fill keyword
arguments.  `args` are the opcode's argument symbols, `args[0]` the result. -/
def llvm_gen_closure (registry : List (String × ClosureEntry)) (op : Opcode)
    (args : List Symbol) : ClosureGenOut :=
  let weighted : Nat := if (args.getD 1 default).typespec.is_string then 0 else 1
  let Id := args.getD (1 + weighted) default
  let closure_name := Id.string_value
  match registry.find? (fun e => e.1 = closure_name) with
  | none =>
      { retval := false
        errors := [⟨"closure not supported by the current renderer",
                    closure_name, op.sourcefile, op.sourceline⟩]
        warnings := [], alloc_calls := [], copies := [],
        prepare_called := false, memset_zero := false, setup_called := false }
  | some e =>
      let clentry := e.2
      let alloc := if weighted = 1 then "osl_allocate_weighted_closure_component"
                   else "osl_allocate_closure_component"
      let formals := closureFormalCopies clentry op closure_name weighted args
      let keywords := keywordFill clentry op closure_name
        (2 + weighted + clentry.nformal) args
      { retval := true
        errors := formals.2
        warnings := keywords.2
        alloc_calls := [alloc]
        copies := formals.1 ++ keywords.1
        prepare_called := clentry.has_prepare
        memset_zero := !clentry.has_prepare
        setup_called := clentry.has_setup }

/-! ## Dictionary (`dictionary.cpp`) -/

/-- One cached XML node (`Dictionary::Node`): owning document, the node's
attributes and text (standing for the `pugi::xml_node`), and the `next`
link to the following match of the same query. -/
structure DictNode where
  document : Int
  attrs : List (String × String)
  text : String
  next : Int
deriving DecidableEq, Repr

instance : Inhabited DictNode := ⟨⟨0, [], "", 0⟩⟩

/-- A query cache key (`Dictionary::Query`); `type = none` stands for
`TypeDesc::UNKNOWN` (a node query rather than an attribute value). -/
structure DictQuery where
  document : Int
  node : Int
  name : String
  type : Option TypeDesc
deriving DecidableEq, Repr

/-- A cached query result (`Dictionary::QueryResult`). -/
structure DictQueryResult where
  valueoffset : Int
  is_valid : Bool
deriving DecidableEq, Repr

/-- One cell of the caller's destination buffer.  `ch` is a string written
in hash form (`treat_ustrings_as_hash`). -/
inductive Cell where
  | ci (v : Int)
  | cf (v : ℚ)
  | cs (v : String)
  | ch (v : Int)
deriving DecidableEq, Repr

/-- Write `n` decoded values into the buffer starting at index 0 (the
`((T*)data)[i] = ...` loops). -/
def writeCells (buf : List Cell) (f : Nat → Cell) (n : Nat) : List Cell :=
  (List.range n).foldl (fun b k => b.set k (f k)) buf

/-- The `Dictionary` cache state.  The external OIIO string parsers
(`Strutil::parse_int` / `parse_float` loops over comma-separated text) and
the ustring hash are supplied as function fields. -/
structure Dictionary where
  nodes : List DictNode
  cache : List (DictQuery × DictQueryResult)
  floatdata : List ℚ
  intdata : List Int
  stringdata : List String
  parseInts : String → Nat → List Int
  parseFloats : String → Nat → List ℚ
  hashfn : String → Int

/-- `Dictionary::dict_next`: 0 for an out-of-range node handle, else the
node's `next` link. -/
def Dictionary.dict_next (d : Dictionary) (nodeID : Int) : Int :=
  if nodeID ≤ 0 ∨ (d.nodes.length : Int) ≤ nodeID then 0
  else (d.nodes.getD nodeID.toNat default).next

/-- `Dictionary::dict_value`: out-of-range handles return 0 with the buffer
untouched; a cached query is decoded from the typed data pools into the
buffer; an uncached one finds the attribute (or node text), decodes it via
the parsers, appends the values to the pools, caches the offset, and fills
the buffer; unsupported types return 0.  Returns (result, buffer, updated
dictionary). -/
def Dictionary.dict_value (d : Dictionary) (nodeID : Int) (attribname : String)
    (ty : TypeDesc) (data : List Cell) (hashmode : Bool) :
    Int × List Cell × Dictionary :=
  if nodeID ≤ 0 ∨ (d.nodes.length : Int) ≤ nodeID then (0, data, d)
  else
    let node := d.nodes.getD nodeID.toNat default
    let q : DictQuery := ⟨node.document, nodeID, attribname, some ty⟩
    let n := ty.numelements * ty.aggregate
    match d.cache.find? (fun e => e.1 = q) with
    | some e =>
        let offset := e.2.valueoffset.toNat
        if ty.basetype = .STRING then
          let s := d.stringdata.getD offset default
          (1, data.set 0 (if hashmode then Cell.ch (d.hashfn s) else Cell.cs s), d)
        else if ty.basetype = .INT then
          (1, writeCells data (fun k => Cell.ci (d.intdata.getD (offset + k) 0)) n, d)
        else if ty.basetype = .FLOAT then
          (1, writeCells data (fun k => Cell.cf (d.floatdata.getD (offset + k) 0)) n, d)
        else (0, data, d)
    | none =>
        let val : Option String :=
          if attribname = "" then some node.text
          else (node.attrs.find? (fun a => a.1 = attribname)).map (fun a => a.2)
        match val with
        | none => (0, data, d)
        | some v =>
            if ty.basetype = .STRING ∧ n = 1 then
              let r : DictQueryResult := ⟨(d.stringdata.length : Int), true⟩
              (1, data.set 0 (if hashmode then Cell.ch (d.hashfn v) else Cell.cs v),
               { d with stringdata := d.stringdata ++ [v],
                        cache := d.cache ++ [(q, r)] })
            else if ty.basetype = .INT then
              let vs := d.parseInts v n
              let r : DictQueryResult := ⟨(d.intdata.length : Int), true⟩
              (1, writeCells data (fun k => Cell.ci (vs.getD k 0)) n,
               { d with intdata := d.intdata ++ vs,
                        cache := d.cache ++ [(q, r)] })
            else if ty.basetype = .FLOAT then
              let vs := d.parseFloats v n
              let r : DictQueryResult := ⟨(d.floatdata.length : Int), true⟩
              (1, writeCells data (fun k => Cell.cf (vs.getD k 0)) n,
               { d with floatdata := d.floatdata ++ vs,
                        cache := d.cache ++ [(q, r)] })
            else (0, data, d)

/-- A freshly constructed dictionary: only the placeholder node 0. -/
def dictFresh : Dictionary :=
  { nodes := [⟨0, [], "", 0⟩], cache := [], floatdata := [], intdata := [],
    stringdata := [], parseInts := fun _ _ => [],
    parseFloats := fun _ _ => [], hashfn := fun _ => 0 }

/-- The result symbol (`Ci`), closure-typed. -/
def symCi : Symbol :=
  { name := "Ci", symtype := .SymTypeOutputParam,
    typespec := ⟨FLOATdesc, true, false⟩, valuesource := .DefaultVal,
    everused := true, everused_in_group := true, interpolated := false,
    interactive := false, has_derivs := false, fieldid := -1,
    initbegin := 0, initend := 0, dataoffset := 0, data := [] }

/-- A constant string symbol holding the closure name `phong`. -/
def symPhongName : Symbol :=
  { name := "const1", symtype := .SymTypeConst,
    typespec := ⟨⟨.STRING, 1, 0⟩, false, false⟩, valuesource := .DefaultVal,
    everused := true, everused_in_group := true, interpolated := false,
    interactive := false, has_derivs := false, fieldid := -1,
    initbegin := 0, initend := 0, dataoffset := 0, data := [PoolVal.ps "phong"] }

/-- The closure opcode at `test.osl:42`. -/
def opClosureTest : Opcode := ⟨"closure", "test.osl", 42, 0, 2⟩

/-! ## Lookup lemmas for generator stores -/

theorem Store.set_self (st : Store) (d i : Nat) (e : Expr) :
    st.set d i e (d, i) = some e := by
  simp [Store.set]

theorem Store.set_other (st : Store) (d i : Nat) (e : Expr) (k : Nat × Nat)
    (h : k ≠ (d, i)) : st.set d i e k = st k := by
  simp [Store.set, h]

theorem foldl_preserve {α : Type} (body : Store → α → Store) :
    ∀ (l : List α) (st : Store) (k : Nat × Nat),
      (∀ s j, j ∈ l → body s j k = s k) → l.foldl body st k = st k := by
  intro l
  induction l with
  | nil => intro st k _; rfl
  | cons j l ih =>
      intro st k h
      simp only [List.foldl_cons]
      rw [ih (body st j) k (fun s j' hj' => h s j' (List.mem_cons_of_mem _ hj')),
          h st j (List.mem_cons_self _ _)]

/-- Reading slot `k` (with component `k.2 = i`) after a component loop gives
whatever iteration `i` writes there, provided each iteration only touches its
own component's slots. -/
theorem compLoop_get (body : Store → Nat → Store)
    (hbody : ∀ s j k, k.2 ≠ j → body s j k = s k)
    (i : Nat) (k : Nat × Nat) (hk : k.2 = i)
    (v : Option Expr) (hval : ∀ s, body s i k = v) :
    ∀ (n : Nat) (st : Store), i < n → compLoop n body st k = v := by
  intro n
  induction n with
  | zero => intro st h; omega
  | succ m ih =>
      intro st h
      unfold compLoop at *
      rw [List.range_succ, List.foldl_append]
      simp only [List.foldl_cons, List.foldl_nil]
      by_cases him : i = m
      · subst him; exact hval _
      · rw [hbody _ m k (by omega)]
        exact ih st (by omega)

theorem compLoop_preserve (body : Store → Nat → Store) (n : Nat) (st : Store)
    (k : Nat × Nat) (h : ∀ s j, body s j k = s k) :
    compLoop n body st k = st k :=
  foldl_preserve body _ st k (fun s j _ => h s j)

theorem mulCompBody_frame (Result A B : SymbolGen) (s : Store) (j : Nat)
    (k : Nat × Nat) (hk : k.2 ≠ j) : mulCompBody Result A B s j k = s k := by
  unfold mulCompBody
  have h0 : k ≠ (0, j) := fun he => hk (by rw [he])
  have h1 : k ≠ (1, j) := fun he => hk (by rw [he])
  have h2 : k ≠ (2, j) := fun he => hk (by rw [he])
  by_cases hc : (Result.has_derivs && (A.has_derivs || B.has_derivs)) = true
  · simp only [hc, if_true]
    rw [Store.set_other _ _ _ _ _ h2, Store.set_other _ _ _ _ _ h1,
        Store.set_other _ _ _ _ _ h0]
  · rw [if_neg hc, Store.set_other _ _ _ _ _ h0]

theorem divCompBody_frame (A B : SymbolGen) (deriv : Bool) (s : Store) (j : Nat)
    (k : Nat × Nat) (hk : k.2 ≠ j) : divCompBody A B deriv s j k = s k := by
  unfold divCompBody
  have h0 : k ≠ (0, j) := fun he => hk (by rw [he])
  have h1 : k ≠ (1, j) := fun he => hk (by rw [he])
  have h2 : k ≠ (2, j) := fun he => hk (by rw [he])
  by_cases hc : deriv = true
  · simp only [hc, if_true]
    rw [Store.set_other _ _ _ _ _ h2, Store.set_other _ _ _ _ _ h1,
        Store.set_other _ _ _ _ _ h0]
  · rw [if_neg hc, Store.set_other _ _ _ _ _ h0]

theorem minmaxCompBody_frame (op : MinMaxOp) (Result x y : SymbolGen) (s : Store)
    (j : Nat) (k : Nat × Nat) (hk : k.2 ≠ j) :
    minmaxCompBody op Result x y s j k = s k := by
  unfold minmaxCompBody
  have h0 : k ≠ (0, j) := fun he => hk (by rw [he])
  have h1 : k ≠ (1, j) := fun he => hk (by rw [he])
  have h2 : k ≠ (2, j) := fun he => hk (by rw [he])
  by_cases hc : Result.has_derivs = true
  · simp only [hc, if_true]
    rw [Store.set_other _ _ _ _ _ h2, Store.set_other _ _ _ _ _ h1,
        Store.set_other _ _ _ _ _ h0]
  · rw [if_neg hc, Store.set_other _ _ _ _ _ h0]

theorem llvm_zero_derivs_get (n : Nat) (st : Store) (d i : Nat)
    (hd : d = 1 ∨ d = 2) (hi : i < n) :
    llvm_zero_derivs n st (d, i) = some (.const 0) := by
  unfold llvm_zero_derivs
  exact if_pos ⟨hd, hi⟩

theorem mulCompBody_dx (Result A B : SymbolGen) (s : Store) (i : Nat)
    (hc : (Result.has_derivs && (A.has_derivs || B.has_derivs)) = true) :
    mulCompBody Result A B s i (1, i) =
      some (Expr.add (.mul (.load A.id 0 i) (.load B.id 1 i))
                     (.mul (.load A.id 1 i) (.load B.id 0 i))) := by
  unfold mulCompBody
  rw [if_pos hc, Store.set_other _ _ _ _ _ (by simp), Store.set_self]

theorem mulCompBody_dy (Result A B : SymbolGen) (s : Store) (i : Nat)
    (hc : (Result.has_derivs && (A.has_derivs || B.has_derivs)) = true) :
    mulCompBody Result A B s i (2, i) =
      some (Expr.add (.mul (.load A.id 0 i) (.load B.id 2 i))
                     (.mul (.load A.id 2 i) (.load B.id 0 i))) := by
  unfold mulCompBody
  rw [if_pos hc, Store.set_self]

/-- **C1.** For a `mul` lowering on float-based (non-matrix, non-closure)
operands where the result has derivatives and at least one operand has
derivatives, the emitted dx channel of each component is the expression
`a*bx + ax*b` and the emitted dy channel is `a*by + ay*b`, where `(a,ax,ay)`
and `(b,bx,by)` are the loaded value/derivative channels of the two operands
for that component; under any runtime environment those expressions evaluate
to the product rule values. -/
theorem mul_emits_product_rule (rty : ResultType) (Result A B : SymbolGen)
    (hcl : rty.is_closure = false) (hmx : rty.is_matrix = false)
    (hrd : Result.has_derivs = true)
    (hod : A.has_derivs = true ∨ B.has_derivs = true)
    (i : Nat) (hi : i < rty.aggregate) :
    ((llvm_gen_mul rty Result A B).store (1, i) =
        some (Expr.add (.mul (.load A.id 0 i) (.load B.id 1 i))
                       (.mul (.load A.id 1 i) (.load B.id 0 i))) ∧
      (llvm_gen_mul rty Result A B).store (2, i) =
        some (Expr.add (.mul (.load A.id 0 i) (.load B.id 2 i))
                       (.mul (.load A.id 2 i) (.load B.id 0 i)))) ∧
    ∀ (env : Env) (ext : Extern),
      (Expr.add (.mul (.load A.id 0 i) (.load B.id 1 i))
                (.mul (.load A.id 1 i) (.load B.id 0 i))).eval env ext =
          env A.id 0 i * env B.id 1 i + env A.id 1 i * env B.id 0 i ∧
      (Expr.add (.mul (.load A.id 0 i) (.load B.id 2 i))
                (.mul (.load A.id 2 i) (.load B.id 0 i))).eval env ext =
          env A.id 0 i * env B.id 2 i + env A.id 2 i * env B.id 0 i := by
  have hcond : (Result.has_derivs && (A.has_derivs || B.has_derivs)) = true := by
    rcases hod with h | h <;> simp [hrd, h]
  have hno : ¬(Result.has_derivs = true ∧ A.has_derivs = false ∧ B.has_derivs = false) := by
    rcases hod with h | h <;> simp [h]
  have hstore : (llvm_gen_mul rty Result A B).store =
      compLoop rty.aggregate (mulCompBody Result A B) Store.empty := by
    simp [llvm_gen_mul, hcl, hmx, hno]
  refine ⟨⟨?_, ?_⟩, fun env ext => ⟨rfl, rfl⟩⟩
  · rw [hstore]
    exact compLoop_get _ (mulCompBody_frame Result A B) i (1, i) rfl _
      (fun s => mulCompBody_dx Result A B s i hcond) rty.aggregate Store.empty hi
  · rw [hstore]
    exact compLoop_get _ (mulCompBody_frame Result A B) i (2, i) rfl _
      (fun s => mulCompBody_dy Result A B s i hcond) rty.aggregate Store.empty hi

theorem mul_emits_product_rule_witness :
    (llvm_gen_mul ⟨3, false, false, true⟩ ⟨0, true, false, false⟩
        ⟨1, true, false, false⟩ ⟨2, false, false, false⟩).store (1, 1) =
      some (Expr.add (.mul (.load 1 0 1) (.load 2 1 1))
                     (.mul (.load 1 1 1) (.load 2 0 1))) :=
  (mul_emits_product_rule ⟨3, false, false, true⟩ ⟨0, true, false, false⟩
    ⟨1, true, false, false⟩ ⟨2, false, false, false⟩
    rfl rfl rfl (Or.inl rfl) 1 (by decide)).1.1

/-- **C2.** For add/sub/mul/div on a non-closure, non-matrix result that
carries derivatives while neither operand does, the generator stores an
explicit zero into both derivative channels of every component. -/
theorem arith_zero_fills_derivs (rty : ResultType) (Result A B : SymbolGen)
    (hcl : rty.is_closure = false) (hmx : rty.is_matrix = false)
    (hrd : Result.has_derivs = true)
    (ha : A.has_derivs = false) (hb : B.has_derivs = false)
    (d i : Nat) (hd : d = 1 ∨ d = 2) (hi : i < rty.aggregate) :
    (llvm_gen_add rty Result A B).store (d, i) = some (.const 0) ∧
    (llvm_gen_sub rty Result A B).store (d, i) = some (.const 0) ∧
    (llvm_gen_mul rty Result A B).store (d, i) = some (.const 0) ∧
    (llvm_gen_div rty Result A B).store (d, i) = some (.const 0) := by
  refine ⟨?_, ?_, ?_, ?_⟩
  · have h1 : (llvm_gen_add rty Result A B).store =
        llvm_zero_derivs rty.aggregate (compLoop rty.aggregate (fun st i =>
          st.set 0 i (.add (.load A.id 0 i) (.load B.id 0 i))) Store.empty) := by
      simp [llvm_gen_add, hcl, hrd, ha, hb]
    rw [h1]
    exact llvm_zero_derivs_get _ _ _ _ hd hi
  · have h1 : (llvm_gen_sub rty Result A B).store =
        llvm_zero_derivs rty.aggregate (compLoop rty.aggregate (fun st i =>
          st.set 0 i (.sub (.load A.id 0 i) (.load B.id 0 i))) Store.empty) := by
      simp [llvm_gen_sub, hrd, ha, hb]
    rw [h1]
    exact llvm_zero_derivs_get _ _ _ _ hd hi
  · have h1 : (llvm_gen_mul rty Result A B).store =
        llvm_zero_derivs rty.aggregate
          (compLoop rty.aggregate (mulCompBody Result A B) Store.empty) := by
      simp [llvm_gen_mul, hcl, hmx, hrd, ha, hb]
    rw [h1]
    exact llvm_zero_derivs_get _ _ _ _ hd hi
  · have h1 : (llvm_gen_div rty Result A B).store =
        llvm_zero_derivs rty.aggregate
          (compLoop rty.aggregate
            (divCompBody A B (Result.has_derivs && (A.has_derivs || B.has_derivs)))
            Store.empty) := by
      simp [llvm_gen_div, hmx, hrd, ha, hb]
    rw [h1]
    exact llvm_zero_derivs_get _ _ _ _ hd hi

theorem arith_zero_fills_derivs_witness :
    (llvm_gen_add ⟨3, false, false, true⟩ ⟨0, true, false, false⟩
        ⟨1, false, false, false⟩ ⟨2, false, false, false⟩).store (2, 0) =
      some (.const 0) ∧
    (llvm_gen_sub ⟨3, false, false, true⟩ ⟨0, true, false, false⟩
        ⟨1, false, false, false⟩ ⟨2, false, false, false⟩).store (2, 0) =
      some (.const 0) ∧
    (llvm_gen_mul ⟨3, false, false, true⟩ ⟨0, true, false, false⟩
        ⟨1, false, false, false⟩ ⟨2, false, false, false⟩).store (2, 0) =
      some (.const 0) ∧
    (llvm_gen_div ⟨3, false, false, true⟩ ⟨0, true, false, false⟩
        ⟨1, false, false, false⟩ ⟨2, false, false, false⟩).store (2, 0) =
      some (.const 0) :=
  arith_zero_fills_derivs ⟨3, false, false, true⟩ ⟨0, true, false, false⟩
    ⟨1, false, false, false⟩ ⟨2, false, false, false⟩
    rfl rfl rfl rfl rfl 2 0 (Or.inr rfl) (by decide)

theorem divCompBody_value (A B : SymbolGen) (deriv : Bool) (s : Store) (i : Nat) :
    divCompBody A B deriv s i (0, i) =
      some (divExpr B (.load A.id 0 i) (.load B.id 0 i)) := by
  unfold divCompBody
  by_cases hc : deriv = true
  · rw [if_pos hc, Store.set_other _ _ _ _ _ (by simp),
        Store.set_other _ _ _ _ _ (by simp), Store.set_self]
  · rw [if_neg hc, Store.set_self]

/-- **C6.** Each component of a (non-matrix) `div` lowering stores the
quotient `divExpr B a b`, which is a raw divide exactly when the divisor is a
compile-time constant not provably zero and a call to the safe-divide runtime
function otherwise; and for any divisor value that is nonzero at runtime the
raw divide and the safe divide evaluate to the same number. -/
theorem div_constant_vs_safe (rty : ResultType) (Result A B : SymbolGen)
    (hmx : rty.is_matrix = false) (i : Nat) (hi : i < rty.aggregate) :
    ((llvm_gen_div rty Result A B).store (0, i) =
        some (divExpr B (.load A.id 0 i) (.load B.id 0 i))) ∧
    (B.is_constant = true → B.const_is_zero = false →
        divExpr B (.load A.id 0 i) (.load B.id 0 i) =
          .div (.load A.id 0 i) (.load B.id 0 i)) ∧
    (¬(B.is_constant = true ∧ B.const_is_zero = false) →
        divExpr B (.load A.id 0 i) (.load B.id 0 i) =
          .safeDiv (.load A.id 0 i) (.load B.id 0 i)) ∧
    ∀ (env : Env) (ext : Extern) (a b : Expr),
      b.eval env ext ≠ 0 →
      (Expr.div a b).eval env ext = (Expr.safeDiv a b).eval env ext := by
  refine ⟨?_, ?_, ?_, ?_⟩
  · have h1 : (llvm_gen_div rty Result A B).store (0, i) =
        compLoop rty.aggregate
          (divCompBody A B (Result.has_derivs && (A.has_derivs || B.has_derivs)))
          Store.empty (0, i) := by
      by_cases hz : Result.has_derivs = true ∧ A.has_derivs = false ∧ B.has_derivs = false
      · simp [llvm_gen_div, hmx, hz, llvm_zero_derivs]
      · simp [llvm_gen_div, hmx, hz]
    rw [h1]
    exact compLoop_get _ (divCompBody_frame A B _) i (0, i) rfl _
      (fun s => divCompBody_value A B _ s i) rty.aggregate Store.empty hi
  · intro h1 h2
    unfold divExpr
    rw [if_pos ⟨h1, by simp [h2]⟩]
  · intro h
    unfold divExpr
    rw [if_neg (by simpa using h)]
  · intro env ext a b hb0
    simp [Expr.eval, hb0]

theorem div_constant_vs_safe_witness :
    (llvm_gen_div ⟨1, false, false, true⟩ ⟨0, true, false, false⟩
        ⟨1, true, false, false⟩ ⟨2, false, true, false⟩).store (0, 0) =
      some (divExpr ⟨2, false, true, false⟩ (.load 1 0 0) (.load 2 0 0)) :=
  (div_constant_vs_safe ⟨1, false, false, true⟩ ⟨0, true, false, false⟩
    ⟨1, true, false, false⟩ ⟨2, false, true, false⟩ rfl 0 (by decide)).1

theorem minCompBody_value (Result x y : SymbolGen) (s : Store) (i : Nat)
    (hrd : Result.has_derivs = true) :
    minmaxCompBody .opmin Result x y s i (0, i) =
      some (.select .le (.load x.id 0 i) (.load y.id 0 i)
              (.load x.id 0 i) (.load y.id 0 i)) := by
  unfold minmaxCompBody
  rw [if_pos hrd, Store.set_other _ _ _ _ _ (by simp),
      Store.set_other _ _ _ _ _ (by simp), Store.set_self]

theorem minCompBody_dx (Result x y : SymbolGen) (s : Store) (i : Nat)
    (hrd : Result.has_derivs = true) :
    minmaxCompBody .opmin Result x y s i (1, i) =
      some (.select .le (.load x.id 0 i) (.load y.id 0 i)
              (.load x.id 1 i) (.load y.id 1 i)) := by
  unfold minmaxCompBody
  rw [if_pos hrd, Store.set_other _ _ _ _ _ (by simp), Store.set_self]

theorem minCompBody_dy (Result x y : SymbolGen) (s : Store) (i : Nat)
    (hrd : Result.has_derivs = true) :
    minmaxCompBody .opmin Result x y s i (2, i) =
      some (.select .le (.load x.id 0 i) (.load y.id 0 i)
              (.load x.id 2 i) (.load y.id 2 i)) := by
  unfold minmaxCompBody
  rw [if_pos hrd, Store.set_self]

/-- **C7.** A `min` lowering whose result carries derivatives emits, per
component, a select on the condition `x <= y` for the value and for both
derivative channels; hence when the two operands are equal the value and both
derivatives are taken from the first operand. -/
theorem min_ties_to_first_operand (rty : ResultType) (Result x y : SymbolGen)
    (hrd : Result.has_derivs = true) (i : Nat) (hi : i < rty.aggregate) :
    ((llvm_gen_minmax .opmin rty Result x y).store (0, i) =
        some (.select .le (.load x.id 0 i) (.load y.id 0 i)
                (.load x.id 0 i) (.load y.id 0 i)) ∧
      (llvm_gen_minmax .opmin rty Result x y).store (1, i) =
        some (.select .le (.load x.id 0 i) (.load y.id 0 i)
                (.load x.id 1 i) (.load y.id 1 i)) ∧
      (llvm_gen_minmax .opmin rty Result x y).store (2, i) =
        some (.select .le (.load x.id 0 i) (.load y.id 0 i)
                (.load x.id 2 i) (.load y.id 2 i))) ∧
    ∀ (env : Env) (ext : Extern), env x.id 0 i = env y.id 0 i →
      (Expr.select .le (.load x.id 0 i) (.load y.id 0 i)
          (.load x.id 0 i) (.load y.id 0 i)).eval env ext = env x.id 0 i ∧
      (Expr.select .le (.load x.id 0 i) (.load y.id 0 i)
          (.load x.id 1 i) (.load y.id 1 i)).eval env ext = env x.id 1 i ∧
      (Expr.select .le (.load x.id 0 i) (.load y.id 0 i)
          (.load x.id 2 i) (.load y.id 2 i)).eval env ext = env x.id 2 i := by
  refine ⟨⟨?_, ?_, ?_⟩, ?_⟩
  · exact compLoop_get _ (minmaxCompBody_frame .opmin Result x y) i (0, i) rfl _
      (fun s => minCompBody_value Result x y s i hrd) rty.aggregate Store.empty hi
  · exact compLoop_get _ (minmaxCompBody_frame .opmin Result x y) i (1, i) rfl _
      (fun s => minCompBody_dx Result x y s i hrd) rty.aggregate Store.empty hi
  · exact compLoop_get _ (minmaxCompBody_frame .opmin Result x y) i (2, i) rfl _
      (fun s => minCompBody_dy Result x y s i hrd) rty.aggregate Store.empty hi
  · intro env ext h
    refine ⟨?_, ?_, ?_⟩ <;> simp [Expr.eval, h]

theorem min_ties_to_first_operand_witness :
    (llvm_gen_minmax .opmin ⟨3, false, false, true⟩ ⟨0, true, false, false⟩
        ⟨1, true, false, false⟩ ⟨2, true, false, false⟩).store (1, 2) =
      some (.select .le (.load 1 0 2) (.load 2 0 2) (.load 1 1 2) (.load 2 1 2)) :=
  (min_ties_to_first_operand ⟨3, false, false, true⟩ ⟨0, true, false, false⟩
    ⟨1, true, false, false⟩ ⟨2, true, false, false⟩ rfl 2 (by decide)).1.2.1

/-! ## Merge-relation theorems -/

theorem slotCheck_self (a : SymOverrideInfo) (bytes : List PoolVal) (u : Bool) :
    slotCheck a a bytes bytes u u = true := by
  unfold slotCheck
  by_cases h1 : (a.valuesource = .DefaultVal ∨ a.valuesource = .InstanceVal) ∧
      (a.valuesource = .DefaultVal ∨ a.valuesource = .InstanceVal)
  · rw [if_pos h1]
  · rw [if_neg h1]
    have he : overrideEquivalent a a bytes bytes = true := by
      unfold overrideEquivalent
      simp
    rw [if_neg (by simp [he]), if_neg (by simp)]

theorem overridesOK_self (A : ShaderInstance) : overridesOK A A = true := by
  unfold overridesOK
  rw [List.all_eq_true]
  intro i _
  exact slotCheck_self _ _ _

theorem paramValCheck_self (A : ShaderInstance) (opt : Bool) (i : Nat)
    (hint : (if opt then A.symbol i else A.mastersymbol i).interactive = false) :
    paramValCheck A A opt i = true := by
  unfold paramValCheck
  by_cases h1 : ¬(if opt then A.symbol i else A.mastersymbol i).everused_in_group
  · rw [if_pos h1]
  · rw [if_neg h1]
    by_cases h2 : (if opt then A.symbol i else A.mastersymbol i).typespec.closure
    · rw [if_pos h2]
    · rw [if_neg h2, if_neg (by simp [hint])]

theorem symEquivalent_self (a : Symbol) : symEquivalent a a = true := by
  unfold symEquivalent
  by_cases h1 : ¬a.everused ∧ ¬a.everused
  · rw [if_pos h1]
  · rw [if_neg h1, if_neg (by simp), if_neg (by simp), if_neg (by simp)]
    simp

theorem opEquivalent_self (o : Opcode) : opEquivalent o o = true := by
  simp [opEquivalent]

theorem listEquivalent_self {α : Type} (eqv : α → α → Bool)
    (h : ∀ x, eqv x x = true) (l : List α) : listEquivalent eqv l l = true := by
  unfold listEquivalent
  simp only [Bool.and_eq_true, decide_eq_true_eq]
  refine ⟨trivial, ?_⟩
  rw [List.all_eq_true]
  induction l with
  | nil => intro p hp; cases hp
  | cons x l ih =>
      intro p hp
      rw [List.zip_cons_cons] at hp
      rcases List.mem_cons.mp hp with h1 | h1
      · subst h1; exact h x
      · exact ih p h1

/-- **C3 counterexample.** `mergeable` is not reflexive: an instance
directly bound to a renderer output is not mergeable with itself. -/
theorem mergeable_not_reflexive :
    mergeable true instRendererOut instRendererOut = false := by decide

/-- **C3 (amended).** `mergeable(A, A)` returns true for every instance A
that is not bound to a renderer output, none of whose parameter-range
symbols (instance table if specialized, else master table) is interactive,
and for which either merging of instances with userdata is allowed or A has
no userdata parameters. -/
theorem mergeable_self (optU : Bool) (A : ShaderInstance)
    (hro : A.renderer_outputs = false)
    (hni : ∀ i, A.firstparam ≤ i → i < A.lastparam →
      (A.symbol i).interactive = false ∧ (A.mastersymbol i).interactive = false)
    (huser : optU = true ∨ A.userdata_params = false) :
    mergeable optU A A = true := by
  have hall : ∀ opt : Bool,
      (List.range' A.firstparam (A.lastparam - A.firstparam)).all
        (paramValCheck A A opt) = true := by
    intro opt
    rw [List.all_eq_true]
    intro i hi
    rw [List.mem_range'] at hi
    obtain ⟨j, hj, rfl⟩ := hi
    refine paramValCheck_self A opt _ ?_
    by_cases hop : opt = true
    · rw [if_pos hop]
      exact (hni _ (by omega) (by omega)).1
    · rw [if_neg hop]
      exact (hni _ (by omega) (by omega)).2
  simp only [mergeable]
  rw [if_neg (by simp), if_neg (by simp [hro]),
      if_neg (by simp [overridesOK_self]), if_neg (by simp [hall]),
      if_neg (by simp), if_neg (by simp), if_neg (by simp),
      if_neg (by rcases huser with h | h <;> simp [h])]
  by_cases hopt : (A.instsymbols.length != 0 || A.instops.length != 0) = true
  · rw [if_neg (by simp [hopt]),
        if_neg (by simp [listEquivalent_self symEquivalent symEquivalent_self]),
        if_neg (by simp [listEquivalent_self opEquivalent opEquivalent_self]),
        if_neg (by simp), if_neg (by simp)]
  · rw [if_pos (by simp [hopt])]

theorem mergeable_self_witness : mergeable false instKdPlain instKdPlain = true :=
  mergeable_self false instKdPlain rfl
    (fun i _ h2 => by
      have h2' : i < 1 := h2
      interval_cases i
      exact ⟨rfl, rfl⟩) (Or.inr rfl)

/-- **C4 counterexample.** Two pre-specialization instances whose `Kd`
override records are both instance-valued and differ in the interpolated
flag, with `Kd` referenced in the group, are nevertheless mergeable: the
flag check is skipped entirely for Default/Instance-valued pairs, so the
mismatch does not force `mergeable` to return false. -/
theorem interp_mismatch_merges_anyway :
    mergeable true instKdInterp instKdPlain = true ∧
    (instKdInterp.instoverrides.getD 0 default).interpolated ≠
      (instKdPlain.instoverrides.getD 0 default).interpolated ∧
    (instKdInterp.mastersymbol 0).everused_in_group = true ∧
    (instKdPlain.mastersymbol 0).everused_in_group = true := by decide

/-- **C4 (amended).** When two override records differ in their interpolated
or interactive flag, the pre-specialization override loop disqualifies the
merge exactly when the records are not both Default/Instance-valued and
either the records are otherwise equivalent or at least one of the two
symbols is referenced within the group; and a disqualifying slot at any
in-range index makes `mergeable` return false. -/
theorem interp_mismatch_rule (a b : SymOverrideInfo) (abytes bbytes : List PoolVal)
    (aUsed bUsed : Bool)
    (hmm : a.interpolated ≠ b.interpolated ∨ a.interactive ≠ b.interactive) :
    (slotCheck a b abytes bbytes aUsed bUsed = false ↔
      (¬((a.valuesource = .DefaultVal ∨ a.valuesource = .InstanceVal) ∧
         (b.valuesource = .DefaultVal ∨ b.valuesource = .InstanceVal)) ∧
       (overrideEquivalent a b abytes bbytes = true ∨ aUsed = true ∨ bUsed = true))) ∧
    ∀ (optU : Bool) (A B : ShaderInstance) (i : Nat),
      i < A.instoverrides.length →
      slotCheck (A.instoverrides.getD i default) (B.instoverrides.getD i default)
        (A.param_storage i (A.mastersymbol i).typespec.simple.basevalues)
        (B.param_storage i (B.mastersymbol i).typespec.simple.basevalues)
        (A.mastersymbol i).everused_in_group (B.mastersymbol i).everused_in_group
        = false →
      mergeable optU A B = false := by
  constructor
  · unfold slotCheck
    by_cases h1 : (a.valuesource = .DefaultVal ∨ a.valuesource = .InstanceVal) ∧
        (b.valuesource = .DefaultVal ∨ b.valuesource = .InstanceVal)
    · rw [if_pos h1]
      simp [h1]
    · rw [if_neg h1]
      by_cases h2 : overrideEquivalent a b abytes bbytes = true
      · rw [if_neg (by simp [h2]), if_pos hmm]
        simp [h1, h2]
      · rw [if_pos (by simp [h2])]
        cases aUsed <;> cases bUsed <;> simp [h1, h2]
  · intro optU A B i hi hslot
    simp only [mergeable]
    by_cases hm : A.master.id ≠ B.master.id
    · rw [if_pos hm]
    · rw [if_neg hm]
      by_cases hrend : A.renderer_outputs ∨ B.renderer_outputs
      · rw [if_pos hrend]
      · rw [if_neg hrend]
        have hov : ¬ overridesOK A B = true := by
          unfold overridesOK
          rw [List.all_eq_true]
          intro hall2
          have hcontra := hall2 i (List.mem_range.mpr hi)
          rw [hslot] at hcontra
          exact Bool.false_ne_true hcontra
        rw [if_pos hov]

theorem interp_mismatch_rule_witness :
    slotCheck ovrConnInterp ovrConnPlain [] [] true false = false ↔
      (¬((ovrConnInterp.valuesource = .DefaultVal ∨
          ovrConnInterp.valuesource = .InstanceVal) ∧
         (ovrConnPlain.valuesource = .DefaultVal ∨
          ovrConnPlain.valuesource = .InstanceVal)) ∧
       (overrideEquivalent ovrConnInterp ovrConnPlain [] [] = true ∨
        true = true ∨ false = true)) :=
  (interp_mismatch_rule ovrConnInterp ovrConnPlain [] [] true false
    (Or.inl (by decide))).1

/-! ## Parameter-binding theorems -/

theorem getD_set_self {α : Type} [Inhabited α] (l : List α) (i : Nat) (a : α)
    (h : i < l.length) : (l.set i a).getD i default = a := by
  rw [List.getD_eq_getElem?_getD, List.getElem?_set_eq_of_lt a h]
  rfl

theorem copyParamData_overrides (m : ShaderMaster) (st : BindState) (i : Nat)
    (data : List PoolVal) :
    (copyParamData m st i data).overrides = st.overrides := by
  unfold copyParamData
  cases h : (m.symbol i).typespec.simple.basetype <;> simp [h]

/-- **C5 counterexample.** Binding `Kd = 0.8` (its exact master default,
no init ops) with an interpolated hint leaves the value source as
Instance-supplied: the revert to Default additionally requires the binding
to be lockgeom (neither interpolated nor interactive), which the claim
omits. -/
theorem default_revert_needs_lockgeom :
    ((parameters masterM1 false [(pvKd, ⟨true, false⟩)]).overrides.getD 0
        default).valuesource = .InstanceVal := by decide

/-- **C5 (amended).** When `parameters` binds a supplied value of exactly
matching type to a definite-size parameter, and the binding is lockgeom
(the master symbol is not interpolated and the hints request neither
interpolation nor interactivity), the parameter has no init ops, and the
supplied values equal the master's default values, then the override's
value source is set back to Default. -/
theorem default_revert (m : ShaderMaster) (p : ParamValue) (hint : ParamHints)
    (i : Nat)
    (hn : ¬ p.name.length = 0)
    (hfind : findparamMaster m p.name = some i)
    (hcl : (m.symbol i).typespec.closure = false)
    (hstr : (m.symbol i).typespec.is_structure = false)
    (hty : p.type = (m.symbol i).typespec.simple)
    (hdefin : ¬ (m.symbol i).typespec.simple.arraylen < 0)
    (hcompat : compatible_param (m.symbol i).typespec.simple p.type = true)
    (hinterp : (m.symbol i).interpolated = false)
    (hhint1 : hint.interpolated = false) (hhint2 : hint.interactive = false)
    (hinit : (m.symbol i).initbegin = (m.symbol i).initend)
    (heq : m.param_default_storage i p.type.basevalues =
      p.data.take p.type.basevalues)
    (hi : i < m.lastparam) :
    ((parameters m false [(p, hint)]).overrides.getD i default).valuesource =
      .DefaultVal := by
  have hio : (m.symbol i).has_init_ops = false := by
    simp [Symbol.has_init_ops, hinit]
  have hvec : ¬((m.symbol i).typespec.simple.is_vec3 = true ∧ p.type = FLOATdesc) := by
    rintro ⟨hv, hf⟩
    rw [← hty, hf] at hv
    exact absurd hv (by decide)
  simp only [parameters, List.foldl_cons, List.foldl_nil]
  simp [bindOneParam, hfind, hn, hcl, hstr, hvec, hdefin, hcompat, hinterp,
    hhint1, hhint2, hio, heq, copyParamData_overrides,
    List.getElem?_set_eq_of_lt, List.length_map, List.length_range, hi]

theorem default_revert_witness :
    ((parameters masterM1 false [(pvKd, ⟨false, false⟩)]).overrides.getD 0
        default).valuesource = .DefaultVal :=
  default_revert masterM1 pvKd ⟨false, false⟩ 0 (by decide) (by decide) rfl rfl rfl
    (by decide) (by decide) rfl rfl rfl rfl (by decide) (by decide)

theorem overwrite_at_end {α : Type} [Inhabited α] (pool vals : List α) :
    listOverwrite (expand pool vals.length) pool.length vals = pool ++ vals := by
  unfold listOverwrite expand
  have h1 : ((pool ++ List.replicate vals.length default).take pool.length) = pool := by
    rw [List.take_append_eq_append_take]
    simp
  have h2 : ((pool ++ List.replicate vals.length default).drop
      (pool.length + vals.length)) = [] := by
    rw [List.drop_append_eq_append_drop]
    simp
  rw [h1, h2, List.append_nil]

theorem map_roundtrip (bt : BaseType) (l : List PoolVal)
    (h : ∀ v ∈ l, v.hasBase bt = true) :
    (match bt with
     | .INT => (l.map toIntVal).map PoolVal.pi
     | .FLOAT => (l.map toFloatVal).map PoolVal.pf
     | .STRING => (l.map toStrVal).map PoolVal.ps) = l := by
  induction l with
  | nil => cases bt <;> rfl
  | cons x l ih =>
      have hx := h x (List.mem_cons_self x l)
      have ihl := ih (fun v hv => h v (List.mem_cons_of_mem x hv))
      cases bt <;> cases x <;>
        simp_all [PoolVal.hasBase, toIntVal, toFloatVal, toStrVal]


theorem indefinite_array_binding (m : ShaderMaster) (p : ParamValue)
    (hint : ParamHints) (i : Nat)
    (hn : ¬ p.name.length = 0)
    (hfind : findparamMaster m p.name = some i)
    (hcl : (m.symbol i).typespec.closure = false)
    (hstr : (m.symbol i).typespec.is_structure = false)
    (hindef : (m.symbol i).typespec.simple.arraylen < 0)
    (hcompat : compatible_param (m.symbol i).typespec.simple p.type = true)
    (hlen : p.data.length = p.type.basevalues)
    (hdata : ∀ v ∈ p.data, v.hasBase (m.symbol i).typespec.simple.basetype = true)
    (hagg0 : 0 < (m.symbol i).typespec.simple.aggregate)
    (hge : (m.symbol i).typespec.simple.aggregate ≤ p.type.basevalues)
    (hi : i < m.lastparam) :
    ((parameters m false [(p, hint)]).overrides.getD i default).arraylen =
      p.type.basevalues / (m.symbol i).typespec.simple.aggregate ∧
    ((parameters m false [(p, hint)]).overrides.getD i default).dataoffset =
      (match (m.symbol i).typespec.simple.basetype with
       | .INT => m.idefaults.length
       | .FLOAT => m.fdefaults.length
       | .STRING => m.sdefaults.length) ∧
    BindState.param_storage m (parameters m false [(p, hint)]) i
      p.type.basevalues = p.data := by
  have hvec : ¬((m.symbol i).typespec.simple.is_vec3 = true ∧ p.type = FLOATdesc) := by
    rintro ⟨hv, _⟩
    unfold TypeDesc.is_vec3 at hv
    simp only [Bool.and_eq_true, decide_eq_true_eq] at hv
    omega
  have hnz : ¬m.lastparam = 0 ∧
      ¬p.type.basevalues / (m.symbol i).typespec.simple.aggregate = 0 := by
    refine ⟨by omega, ?_⟩
    have := Nat.div_pos hge hagg0
    omega
  simp only [parameters, List.foldl_cons, List.foldl_nil]
  cases hb : (m.symbol i).typespec.simple.basetype with
  | FLOAT =>
      simp [bindOneParam, hfind, hn, hcl, hstr, hvec, hindef, hcompat, hb,
        copyParamData, BindState.param_storage,
        List.getElem?_set_eq_of_lt, List.length_map, List.length_range, hi]
      rw [if_pos hnz]
      have hdp : ∀ v ∈ p.data, v.hasBase BaseType.FLOAT = true := by
        intro v hv
        have := hdata v hv
        rwa [hb] at this
      have hlf : (List.map toFloatVal p.data).length = p.type.basevalues := by
        simp [hlen]
      rw [← hlf, overwrite_at_end, List.map_append, List.drop_left' (by simp),
          List.take_of_length_le (by simp)]
      exact map_roundtrip BaseType.FLOAT p.data hdp
  | INT =>
      simp [bindOneParam, hfind, hn, hcl, hstr, hvec, hindef, hcompat, hb,
        copyParamData, BindState.param_storage,
        List.getElem?_set_eq_of_lt, List.length_map, List.length_range, hi]
      rw [if_pos hnz]
      have hdp : ∀ v ∈ p.data, v.hasBase BaseType.INT = true := by
        intro v hv
        have := hdata v hv
        rwa [hb] at this
      have hlf : (List.map toIntVal p.data).length = p.type.basevalues := by
        simp [hlen]
      rw [← hlf, overwrite_at_end, List.map_append, List.drop_left' (by simp),
          List.take_of_length_le (by simp)]
      exact map_roundtrip BaseType.INT p.data hdp
  | STRING =>
      simp [bindOneParam, hfind, hn, hcl, hstr, hvec, hindef, hcompat, hb,
        copyParamData, BindState.param_storage,
        List.getElem?_set_eq_of_lt, List.length_map, List.length_range, hi]
      rw [if_pos hnz]
      have hdp : ∀ v ∈ p.data, v.hasBase BaseType.STRING = true := by
        intro v hv
        have := hdata v hv
        rwa [hb] at this
      have hlf : (List.map toStrVal p.data).length = p.type.basevalues := by
        simp [hlen]
      rw [← hlf, overwrite_at_end, List.map_append, List.drop_left' (by simp),
          List.take_of_length_le (by simp)]
      exact map_roundtrip BaseType.STRING p.data hdp


theorem indefinite_array_binding_witness :
    ((parameters masterM2 false [(pvFArr, ⟨false, false⟩)]).overrides.getD 0
        default).arraylen =
      pvFArr.type.basevalues / (masterM2.symbol 0).typespec.simple.aggregate ∧
    ((parameters masterM2 false [(pvFArr, ⟨false, false⟩)]).overrides.getD 0
        default).dataoffset =
      (match (masterM2.symbol 0).typespec.simple.basetype with
       | .INT => masterM2.idefaults.length
       | .FLOAT => masterM2.fdefaults.length
       | .STRING => masterM2.sdefaults.length) ∧
    BindState.param_storage masterM2
      (parameters masterM2 false [(pvFArr, ⟨false, false⟩)]) 0
      pvFArr.type.basevalues = pvFArr.data :=
  indefinite_array_binding masterM2 pvFArr ⟨false, false⟩ 0 (by decide) (by decide)
    rfl rfl (by decide) (by decide) (by decide) (by decide) (by decide)
    (by decide) (by decide)

/-! ## Closure and dictionary theorems -/

/-- **C9.** A closure-construction opcode whose closure name is not in the
external registry reports an error naming the closure, the source file and
the source line, and returns false; no closure storage allocation call is
emitted in that case. -/
theorem closure_unknown_name (registry : List (String × ClosureEntry))
    (op : Opcode) (args : List Symbol)
    (hnone : registry.find? (fun e => e.1 =
        (args.getD (1 + (if (args.getD 1 default).typespec.is_string then 0 else 1))
          default).string_value) = none) :
    (llvm_gen_closure registry op args).retval = false ∧
    (llvm_gen_closure registry op args).errors =
      [⟨"closure not supported by the current renderer",
        (args.getD (1 + (if (args.getD 1 default).typespec.is_string then 0 else 1))
          default).string_value,
        op.sourcefile, op.sourceline⟩] ∧
    (llvm_gen_closure registry op args).alloc_calls = [] := by
  simp only [llvm_gen_closure]
  rw [hnone]
  exact ⟨rfl, rfl, rfl⟩

theorem closure_unknown_name_witness :
    (llvm_gen_closure [] opClosureTest [symCi, symPhongName]).retval = false ∧
    (llvm_gen_closure [] opClosureTest [symCi, symPhongName]).errors =
      [⟨"closure not supported by the current renderer",
        ([symCi, symPhongName].getD
          (1 + (if ([symCi, symPhongName].getD 1 default).typespec.is_string
                then 0 else 1)) default).string_value,
        opClosureTest.sourcefile, opClosureTest.sourceline⟩] ∧
    (llvm_gen_closure [] opClosureTest [symCi, symPhongName]).alloc_calls = [] :=
  closure_unknown_name [] opClosureTest [symCi, symPhongName] (by decide)

/-- **C10.** For a node handle that is ≤ 0 or ≥ the number of cached nodes,
`dict_next` returns 0, and `dict_value` returns 0 leaving the caller's data
buffer unchanged. -/
theorem dict_invalid_node (d : Dictionary) (nodeID : Int) (attribname : String)
    (ty : TypeDesc) (data : List Cell) (hmode : Bool)
    (h : nodeID ≤ 0 ∨ (d.nodes.length : Int) ≤ nodeID) :
    d.dict_next nodeID = 0 ∧
    (d.dict_value nodeID attribname ty data hmode).1 = 0 ∧
    (d.dict_value nodeID attribname ty data hmode).2.1 = data := by
  unfold Dictionary.dict_next Dictionary.dict_value
  rw [if_pos h, if_pos h]
  exact ⟨rfl, rfl, rfl⟩

theorem dict_invalid_node_witness :
    dictFresh.dict_next 5 = 0 ∧
    (dictFresh.dict_value 5 "attr" FLOATdesc [Cell.cf 9] false).1 = 0 ∧
    (dictFresh.dict_value 5 "attr" FLOATdesc [Cell.cf 9] false).2.1 = [Cell.cf 9] :=
  dict_invalid_node dictFresh 5 "attr" FLOATdesc [Cell.cf 9] false (by decide)

end OSL
